import Mathlib

/-!
Shallow embedding of the kernel-heap allocator in `src/project3/src/kheap.c`
(functions `heap_create`, `heap_resize`, `find_smallest_hole`, `add_hole`,
`kalloc_heap`, `kfree_heap`), together with theorems settling the claims
about its natural-language specification.

Modelling frame:

* The target is a 32-bit freestanding environment (the source uses
  `u8int`/`s8int` typedefs and the 32-bit page masks `0xFFFFF000`/`0xFFF`).
  `size_t` and pointer arithmetic are therefore modelled as natural numbers
  reduced modulo `2^32` (`add32`/`sub32`); bit masks are applied with `&&&`
  exactly as the source writes them.

* `kheap.h` is not part of `src/`, so the layout constants are modelled from
  the spec: a block header carries `magic`, `size`, `allocated` (three words,
  `sizeof(struct header) = 12` on the 32-bit target), a footer carries
  `magic` and a back pointer to the header (`sizeof(struct footer) = 8`),
  pointers are 4 bytes wide, `PAGE_SIZE = 0x1000`, `PAGE_MASK = 0xFFFFF000`,
  and `HEAP_MAGIC` is an arbitrary fixed sentinel.

* Memory is modelled as two association lists mapping addresses to header
  and footer records.  A read of a header field at an address that holds a
  footer is resolved by the 32-bit field overlay (`magic` at offset 0 in
  both structs, `size` of a header and `header` of a footer both at offset
  4), mirroring what the C type puns would read; a read from a never-written
  address yields a junk record whose magic is 0 (the standard environment
  assumption that stray memory does not spell `HEAP_MAGIC`).

* `sorted_array.c` is also absent from `src/`.  `Modelled from the spec:`
  the free list is an ordered collection of block references sorted
  ascending by `header.size` (comparator `header_less_than`), with ordered
  insert, removal by index, and indexed lookup; list capacity is not
  modelled (no scenario below approaches it).
-/

namespace KHeap

/-- Word size of the 32-bit target: `size_t` arithmetic wraps modulo `W`. -/
def W : Nat := 2 ^ 32

def PAGE_SIZE : Nat := 0x1000

def PAGE_MASK : Nat := 0xFFFFF000

/-- Modelled from the spec: `kheap.h` is not in `src/`; the magic sentinel is
an arbitrary fixed word. -/
def HEAP_MAGIC : Nat := 0x123890AB

/-- Modelled from the spec: `sizeof(struct header)` — `magic`, `size`,
`allocated` on the 32-bit target. -/
def sizeofHeader : Nat := 12

/-- Modelled from the spec: `sizeof(struct footer)` — `magic` and the back
pointer to the header. -/
def sizeofFooter : Nat := 8

/-- Pointer width of the 32-bit target (`sizeof(void *)`). -/
def PTR_SIZE : Nat := 4

/-- Modelled from the spec: `sizeof(struct sorted_array)` bookkeeping record
placed at the front of the heap. -/
def sizeofSortedArray : Nat := 16

/-- Modelled from the spec: capacity `HEAP_FREE_LIST_SIZE` of the free list
(only its contribution to the data-area offset matters here). -/
def HEAP_FREE_LIST_SIZE : Nat := 32

/-- 32-bit wrapping addition (`size_t`/pointer addition of the target). -/
def add32 (a b : Nat) : Nat := (a + b) % W

/-- 32-bit wrapping subtraction (`size_t`/pointer subtraction of the
target). -/
def sub32 (a b : Nat) : Nat := (a + (W - b % W)) % W

/-- `struct header` of kheap: `magic`, `size` (total block size including
header and footer), `allocated` flag. -/
structure HeaderV where
  magic : Nat
  size : Nat
  allocated : Nat
  deriving Repr, DecidableEq

/-- `struct footer` of kheap: `magic` and the back pointer to the block's
header (stored as its address). -/
structure FooterV where
  magic : Nat
  header : Nat
  deriving Repr, DecidableEq

/-- The allocator state: header cells, footer cells, the sorted free list
(addresses of free-block headers) and the three region bounds of
`struct heap`. -/
structure State where
  headers : List (Nat × HeaderV)
  footers : List (Nat × FooterV)
  freeList : List Nat
  startAddr : Nat
  endAddr : Nat
  maxAddr : Nat
  deriving Repr, DecidableEq

/-- Lookup the header cell written at address `a`, if any. -/
def lookupH (s : State) (a : Nat) : Option HeaderV :=
  (s.headers.find? (fun c => c.1 = a)).map (fun c => c.2)

/-- Lookup the footer cell written at address `a`, if any. -/
def lookupF (s : State) (a : Nat) : Option FooterV :=
  (s.footers.find? (fun c => c.1 = a)).map (fun c => c.2)

/-- Write a header record at address `a`: the new cell shadows any older
cell at the same address (`lookupH` returns the first match, so the last
write wins). -/
def writeH (s : State) (a : Nat) (h : HeaderV) : State :=
  { s with headers := (a, h) :: s.headers }

/-- Write a footer record at address `a` (last write wins, as for
`writeH`). -/
def writeF (s : State) (a : Nat) (f : FooterV) : State :=
  { s with footers := (a, f) :: s.footers }

/-- Junk header returned by a read of a never-written address: magic 0
(assumed distinct from `HEAP_MAGIC`), size 0, allocated nonzero. -/
def junkHeader : HeaderV := ⟨0, 0, 1⟩

/-- Total read of a header at `a`.  If a footer lives at `a` instead, the
32-bit field overlay is returned (`magic` ← footer magic, `size` ← the
numeric back pointer, `allocated` ← a junk nonzero byte), as the C type pun
would read; a virgin address reads as `junkHeader`. -/
def readHeaderT (s : State) (a : Nat) : HeaderV :=
  match lookupH s a with
  | some h => h
  | none =>
    match lookupF s a with
    | some f => ⟨f.magic, f.header, 1⟩
    | none => junkHeader

/-- Total read of a footer at `a`, with the symmetric overlay for an address
holding a header, and zero junk for a virgin address. -/
def readFooterT (s : State) (a : Nat) : FooterV :=
  match lookupF s a with
  | some f => f
  | none =>
    match lookupH s a with
    | some h => ⟨h.magic, h.size⟩
    | none => ⟨0, 0⟩

/-- The `size` field read at `a` (what `((struct header *)a)->size` reads,
overlay included). -/
def readSizeAt (s : State) (a : Nat) : Nat := (readHeaderT s a).size

/-- Write to the `size` field at `a`: updates a header in place, or by the
32-bit overlay the `header` field of a footer living there; at a virgin
address it deposits the bytes of the field only (junk elsewhere). -/
def writeSizeAt (s : State) (a : Nat) (v : Nat) : State :=
  match lookupH s a with
  | some h => writeH s a { h with size := v }
  | none =>
    match lookupF s a with
    | some f => writeF s a { f with header := v }
    | none => writeH s a { junkHeader with size := v }

/-- Modelled from the spec: ordered insert of `sorted_array_insert` using
comparator `header_less_than` (ascending by `header.size`); the new entry is
placed before the first entry of strictly larger size, after ties. -/
def saInsertGo (s : State) (a : Nat) : List Nat → List Nat
  | [] => [a]
  | x :: xs =>
    if readSizeAt s a < readSizeAt s x then a :: x :: xs else x :: saInsertGo s a xs

/-- Insert address `a` into the free list of `s`, keeping it sorted
ascending by the size read at each entry. -/
def saInsert (s : State) (a : Nat) : State :=
  { s with freeList := saInsertGo s a s.freeList }

/-- `align` of kheap.c: clears the low page bits with `PAGE_MASK`. -/
def alignP (p : Nat) : Nat := p &&& PAGE_MASK

/-- `add_hole` of kheap.c: writes a hole header at `start` spanning to
`end_`, writes the footer at `(struct footer *)end_ - sizeof(f)` — pointer
arithmetic in footer-sized units with `sizeof(f)` the *pointer* size, a slip
faithfully reproduced — and inserts the header into the free list. -/
def addHole (start end_ : Nat) (s : State) : State :=
  let s1 := writeH s start ⟨HEAP_MAGIC, sub32 end_ start, 0⟩
  let s2 := writeF s1 (sub32 end_ (PTR_SIZE * sizeofFooter)) ⟨HEAP_MAGIC, start⟩
  saInsert s2 start

/-- `heap_create` of kheap.c: places the bookkeeping at `start`, advances
the data start past the sorted array and its slots, page-aligns it upward,
records the three bounds and opens one hole spanning the data region. -/
def heapCreate (start end_ max : Nat) : State :=
  let dataStart0 := start + sizeofSortedArray + PTR_SIZE * HEAP_FREE_LIST_SIZE
  let dataStart :=
    if alignP dataStart0 ≠ dataStart0 then alignP dataStart0 + PAGE_SIZE else dataStart0
  addHole dataStart end_
    { headers := [], footers := [], freeList := [],
      startAddr := dataStart, endAddr := end_, maxAddr := max }

/-- The page rounding at the entry of `heap_resize` (kheap.c lines 93-95):
if the size is not page-aligned, mask the low bits and add a page. -/
def resizeRound (n : Nat) : Nat :=
  if alignP n ≠ n then add32 (alignP n) PAGE_SIZE else n

/-- `heap_resize` of kheap.c.  Returns the `s8int` result code and the new
state.  The page rounding, the dead `new_size & (0xFFFFF000 != 0)` test of
the grow branch (operator precedence makes it `new_size & 1`), and the
`new_size &= 0x1000; new_size += 0x1000` mangling of the shrink branch are
reproduced exactly. -/
def heapResize (newSize0 : Nat) (s : State) : Int × State :=
  let ns1 := resizeRound newSize0
  let cur := sub32 s.endAddr s.startAddr
  if ns1 < cur then
    let ns2 := if ns1 &&& 0x1000 ≠ 0 then (ns1 &&& 0x1000) + 0x1000 else ns1
    (0, { s with endAddr := add32 s.startAddr ns2 })
  else if ns1 > cur then
    let ns2 := if ns1 &&& 1 ≠ 0 then add32 (ns1 &&& 0xFFFFF000) 0x1000 else ns1
    if add32 s.startAddr ns2 > s.maxAddr then (-1, s)
    else (0, { s with endAddr := add32 s.startAddr ns2 })
  else (0, { s with endAddr := add32 s.startAddr ns1 })

/-- Loop body of `find_smallest_hole`: scan the free list from index `i`,
computing for each entry the page-alignment offset
`PAGE_SIZE - (loc + sizeof(header)) % PAGE_SIZE` when requested and the
wrapped effective size `header->size - offset`. -/
def findGo (size : Nat) (pageAlign : Bool) (s : State) : Nat → List Nat → Option Nat
  | _, [] => none
  | i, a :: rest =>
    let h := readHeaderT s a
    let offset := if pageAlign then PAGE_SIZE - (a + sizeofHeader) % PAGE_SIZE else 0
    let holeSize := sub32 h.size offset
    if holeSize ≥ size then some i else findGo size pageAlign s (i + 1) rest

/-- `find_smallest_hole` of kheap.c: first index of the free list whose
(wrapped) effective size reaches `size`, else `-1` (here `none`). -/
def findSmallestHole (size : Nat) (pageAlign : Bool) (s : State) : Option Nat :=
  findGo size pageAlign s 0 s.freeList

/-- The highest-header scan of the grow path of `kalloc_heap` (kheap.c
lines 263-277): `iterator_result` starts at 0 and the loop body never
increments it, so the loop terminates only when the free list is empty.
The embedding makes each iteration consume fuel; `none` models
non-termination, `some index` the loop exit (`index` is `-1`, i.e. `none`,
when no entry was examined). -/
def growScan (l : List Nat) : Nat → Nat → Nat → Option Nat → Option (Option Nat)
  | 0, _, _, _ => none
  | fuel + 1, it, value, index =>
    if it < l.length then
      let tmp := l.getD it 0
      if tmp > value then growScan l fuel it tmp (some it)
      else growScan l fuel it value index
    else some index

/-- Common tail of the found-hole path of `kalloc_heap` (kheap.c lines
339-367): write the allocated chunk header and footer, carve a trailing
remainder hole when `old_hole_size - new_size > 0` (writing its footer only
when it lies below `end_address`), insert the remainder, and return the
address just past the chunk header. -/
def kallocFinish (size1 newSize1 loc holeSize : Nat) (s : State) : Option Nat × State :=
  let s1 := writeH s loc ⟨HEAP_MAGIC, newSize1, 1⟩
  let s2 := writeF s1 (add32 (add32 loc sizeofHeader) size1) ⟨HEAP_MAGIC, loc⟩
  let s3 :=
    if sub32 holeSize newSize1 > 0 then
      let hole2 := add32 (add32 (add32 loc sizeofHeader) size1) sizeofFooter
      let s3a := writeH s2 hole2 ⟨HEAP_MAGIC, sub32 holeSize newSize1, 0⟩
      let foot2 := sub32 (sub32 (add32 hole2 holeSize) newSize1) sizeofFooter
      let s3b := if foot2 < s3a.endAddr then writeF s3a foot2 ⟨HEAP_MAGIC, hole2⟩ else s3a
      saInsert s3b hole2
    else s2
  (some (add32 loc sizeofHeader), s3)

/-- The found-hole path of `kalloc_heap` (kheap.c lines 301-367): read the
chosen hole, absorb a too-small remainder into the request, then either
carve a leading hole for page alignment (when `page_align` and
`old_hole_loc & 0xFFFFF000` is nonzero — without removing the chosen
free-list entry) or remove the entry outright, and finish the allocation. -/
def kallocFound (size : Nat) (pageAlign : Bool) (i : Nat) (s : State) : Option Nat × State :=
  let newSize := size + sizeofHeader + sizeofFooter
  let oldHoleLoc := s.freeList.getD i 0
  let oldHoleSize := (readHeaderT s oldHoleLoc).size
  let absorb := sub32 oldHoleSize newSize < sizeofHeader + sizeofFooter
  let size1 := if absorb then sub32 (add32 size oldHoleSize) newSize else size
  let newSize1 := if absorb then oldHoleSize else newSize
  if pageAlign = true ∧ oldHoleLoc &&& 0xFFFFF000 ≠ 0 then
    let newLoc := sub32 (sub32 (add32 oldHoleLoc PAGE_SIZE) (oldHoleLoc &&& 0xFFF)) sizeofHeader
    let carve := sub32 (sub32 PAGE_SIZE (oldHoleLoc &&& 0xFFF)) sizeofHeader
    let s2 := writeH s oldHoleLoc ⟨HEAP_MAGIC, carve, 0⟩
    let s3 := writeF s2 (sub32 newLoc sizeofFooter) ⟨HEAP_MAGIC, oldHoleLoc⟩
    kallocFinish size1 newSize1 newLoc (sub32 oldHoleSize carve) s3
  else
    let s2 := { s with freeList := s.freeList.eraseIdx i }
    kallocFinish size1 newSize1 oldHoleLoc oldHoleSize s2

/-- `kalloc_heap` of kheap.c, with explicit fuel for the recursive retry
(line 298) and for the non-incrementing highest-header scan; the outer
`none` models non-termination, the inner `none` the valueless `return;` on
a failed resize (line 256). -/
def kallocHeap : Nat → Nat → Bool → State → Option (Option Nat × State)
  | 0, _, _, _ => none
  | fuel + 1, size, pageAlign, s =>
    let newSize := size + sizeofHeader + sizeofFooter
    match findSmallestHole newSize pageAlign s with
    | none =>
      let oldLength := sub32 s.endAddr s.startAddr
      let oldEnd := s.endAddr
      let rr := heapResize (add32 oldLength newSize) s
      if rr.1 = -1 then some (none, rr.2)
      else
        let s1 := rr.2
        let newLength := sub32 s1.endAddr s1.startAddr
        match growScan s1.freeList (fuel + 1) 0 0 none with
        | none => none
        | some none =>
          let s2 :=
            addHole oldEnd (sub32 (add32 oldEnd (sub32 newLength oldLength)) sizeofFooter) s1
          kallocHeap fuel size pageAlign s2
        | some (some idx) =>
          let hAddr := s1.freeList.getD idx 0
          let s2 := writeSizeAt s1 hAddr (add32 (readSizeAt s1 hAddr) (sub32 newLength oldLength))
          let fAddr := sub32 (add32 hAddr (readSizeAt s2 hAddr)) sizeofFooter
          let s3 := writeF s2 fAddr ⟨HEAP_MAGIC, hAddr⟩
          kallocHeap fuel size pageAlign s3
    | some i => some (kallocFound size pageAlign i s)

/-- Tail of `kfree_heap` (kheap.c lines 429-467): the end-of-region shrink
and the final free-list insert.  `pH` is the current `p_header` value (after
the coalescing steps, possibly a footer address due to the pun at line 416),
`pF` the original `p_footer` address, `rhAddr` the right-neighbour header
address used by the removal search of the shrink-to-nothing branch. -/
def kfreeTail (pH pF rhAddr : Nat) (addFree : Bool) (s : State) : State :=
  let s1 :=
    if add32 pF sizeofFooter = s.endAddr then
      let length := sub32 s.endAddr s.startAddr
      let rr := heapResize (sub32 pH s.startAddr) s
      let newLength : Nat := if rr.1 = -1 then W - 1 else 0
      let t := rr.2
      if sub32 (readSizeAt t pH) (sub32 length newLength) > 0 then
        let t2 := writeSizeAt t pH (sub32 (readSizeAt t pH) (sub32 length newLength))
        let pF2 := sub32 (add32 pH (readSizeAt t2 pH)) sizeofFooter
        writeF t2 pF2 ⟨HEAP_MAGIC, pH⟩
      else
        match t.freeList.findIdx? (fun a => a = rhAddr) with
        | some i => { t with freeList := t.freeList.eraseIdx i }
        | none => t
    else s
  if addFree then saInsert s1 pH else s1

/-- `kfree_heap` of kheap.c: null check, magic validation of the derived
header and footer, left coalescing (absorbing into the left block without
reinsertion), right coalescing (including the `p_header = right_footer`
pointer pun of line 416 and the removal-by-reference search with its
mid-function return at line 424), end-of-region shrink, and final insert. -/
def kfreeHeap (p : Nat) (s : State) : State :=
  if p = 0 then s
  else
    let hAddr := sub32 p sizeofHeader
    let h := readHeaderT s hAddr
    let fAddr := sub32 (add32 hAddr h.size) sizeofFooter
    if h.magic ≠ HEAP_MAGIC then s
    else if (readFooterT s fAddr).magic ≠ HEAP_MAGIC then s
    else
      let s1 := writeH s hAddr { h with allocated := 0 }
      let lfAddr := sub32 hAddr sizeofFooter
      let lf := readFooterT s1 lfAddr
      let step2 :=
        if lf.magic = HEAP_MAGIC ∧ (readHeaderT s1 lf.header).allocated = 0 then
          let currentSize := readSizeAt s1 hAddr
          let pH := lf.header
          let s2a := writeF s1 fAddr { readFooterT s1 fAddr with header := pH }
          let s2b := writeSizeAt s2a pH (add32 (readSizeAt s2a pH) currentSize)
          (s2b, pH, false)
        else (s1, hAddr, true)
      let s2 := step2.1
      let pH := step2.2.1
      let addFree := step2.2.2
      let rhAddr := add32 fAddr sizeofFooter
      let rh := readHeaderT s2 rhAddr
      if rh.magic = HEAP_MAGIC ∧ rh.allocated = 0 then
        let s3 := writeSizeAt s2 pH (add32 (readSizeAt s2 pH) rh.size)
        let pH2 := sub32 (add32 rhAddr (readSizeAt s3 rhAddr)) PTR_SIZE
        match s3.freeList.findIdx? (fun a => a = rhAddr) with
        | none => s3
        | some i => kfreeTail pH2 fAddr rhAddr addFree { s3 with freeList := s3.freeList.eraseIdx i }
      else kfreeTail pH fAddr rhAddr addFree s2

/-- Walk the chain of block headers from `cursor`, advancing by each
header's `size`, accepting exactly when the cursor lands on `endAddr`. -/
def walkBlocks (s : State) : Nat → Nat → Bool
  | 0, _ => false
  | fuel + 1, cursor =>
    if cursor = s.endAddr then true
    else
      match lookupH s cursor with
      | none => false
      | some h => if h.size = 0 then false else walkBlocks s fuel (cursor + h.size)

/-- The §3 partition invariant: the blocks, read off from the headers in
address order starting at `start_address`, tile `[start_address,
end_address)` exactly — no gaps, no overlaps. -/
def partitionOk (s : State) : Bool :=
  walkBlocks s (s.endAddr - s.startAddr + 1) s.startAddr

/-- The acceptance test of the (amended) first-fit reading of
`find_smallest_hole`: with `page_align` the offset charged against the
entry is `PAGE_SIZE - (loc + sizeof(header)) % PAGE_SIZE` — a value in
`[1, PAGE_SIZE]`, so a full page even when the payload is already aligned —
and the comparison uses the wrapping 32-bit difference. -/
def acceptsHole (size : Nat) (pageAlign : Bool) (s : State) (a : Nat) : Bool :=
  decide (sub32 (readHeaderT s a).size
    (if pageAlign then PAGE_SIZE - (a + sizeofHeader) % PAGE_SIZE else 0) ≥ size)

/-- The acceptance test as the original claim words it: the padding is the
amount actually needed to page-align the payload start (zero when it is
already aligned) and the effective size is the exact integer difference. -/
def claimedAccepts (size : Nat) (pageAlign : Bool) (s : State) (a : Nat) : Bool :=
  let padding : Nat :=
    if pageAlign then (PAGE_SIZE - (a + sizeofHeader) % PAGE_SIZE) % PAGE_SIZE else 0
  decide ((size : Int) ≤ ((readHeaderT s a).size : Int) - (padding : Int))

/-- First index accepted by `claimedAccepts`, scanning in index order —
the search the original claim describes. -/
def claimedFind (size : Nat) (pageAlign : Bool) (s : State) : Nat → List Nat → Option Nat
  | _, [] => none
  | i, a :: rest =>
    if claimedAccepts size pageAlign s a then some i
    else claimedFind size pageAlign s (i + 1) rest

/-! ### Concrete states used by witnesses and counterexamples -/

/-- C2 counterexample state: one free block whose payload start
`0x1FF4 + 12 = 0x2000` is already page-aligned, with
`header.size = 5000`. -/
def sC2x : State :=
  { headers := [(0x1FF4, ⟨HEAP_MAGIC, 5000, 0⟩)], footers := [], freeList := [0x1FF4],
    startAddr := 0x1000, endAddr := 0x3000, maxAddr := 0x10000 }

/-- C1 scenario, step 0: the heap of `heap_create(0x100000, 0x102000,
0x200000)`; the data area starts page-aligned at `0x101000`. -/
def sC1a : State := heapCreate 0x100000 0x102000 0x200000

/-- C1 scenario, step 1: after `kalloc_heap(4076, 0)`, which absorbs the
single `0x1000`-byte hole entirely (remainder 0 is below
header+footer size). -/
def sC1b : State :=
  match kallocHeap 2 4076 false sC1a with
  | some (_, s) => s
  | _ => sC1a

/-- C1 scenario, step 2: after `kalloc_heap(100, 0)` on the full heap,
which grows the region by one page and rebuilds a hole from the old end —
but only up to `new end - sizeof(struct footer)`. -/
def sC1c : State :=
  match kallocHeap 2 100 false sC1b with
  | some (_, s) => s
  | _ => sC1a

/-- C4 scenario, step 0: the same initial heap as the C1 scenario. -/
def sC4a : State := heapCreate 0x100000 0x102000 0x200000

/-- C4 scenario, step 1: after `kalloc_heap(4000, 0)` the free list holds
one 76-byte hole, too small for the next request. -/
def sC4b : State :=
  match kallocHeap 2 4000 false sC4a with
  | some (_, s) => s
  | _ => sC4a

/-- C6 witness state: an allocated block at `0x101000` whose header magic
has been overwritten with `0xDEAD`. -/
def sC6w : State :=
  { headers := [(0x101000, ⟨0xDEAD, 0x800, 1⟩)],
    footers := [(0x1017F8, ⟨HEAP_MAGIC, 0x101000⟩)], freeList := [],
    startAddr := 0x101000, endAddr := 0x103000, maxAddr := 0x200000 }

/-- C5 witness state: one free block at `0x101800` of size `0x2000`,
large enough for a page-aligned allocation after the alignment charge. -/
def sC5w : State :=
  { headers := [(0x101800, ⟨HEAP_MAGIC, 0x2000, 0⟩)], footers := [], freeList := [0x101800],
    startAddr := 0x101000, endAddr := 0x104000, maxAddr := 0x200000 }

/-- C10 witness state: the same single-hole layout as the C5 witness,
used to exercise both the page-alignment carve path and the removal
path of `kalloc_heap`. -/
def sC10w : State :=
  { headers := [(0x101800, ⟨HEAP_MAGIC, 0x2000, 0⟩)], footers := [], freeList := [0x101800],
    startAddr := 0x101000, endAddr := 0x104000, maxAddr := 0x200000 }

/-- C7 scenario state: an allocated block A at `0x101000` (being freed), a
free right neighbour B at `0x101800` (in the free list), and an allocated
block C at `0x102000` reaching `end_address`, with all headers and footers
well formed. -/
def sC7x : State :=
  { headers := [(0x101000, ⟨HEAP_MAGIC, 0x800, 1⟩), (0x101800, ⟨HEAP_MAGIC, 0x800, 0⟩),
                (0x102000, ⟨HEAP_MAGIC, 0x1000, 1⟩)],
    footers := [(0x1017F8, ⟨HEAP_MAGIC, 0x101000⟩), (0x101FF8, ⟨HEAP_MAGIC, 0x101800⟩),
                (0x102FF8, ⟨HEAP_MAGIC, 0x102000⟩)],
    freeList := [0x101800],
    startAddr := 0x101000, endAddr := 0x103000, maxAddr := 0x200000 }

/-- A minimal heap (no blocks materialised) used to exercise the grow
branch of `heap_resize`: one page of current space, ceiling at `0x3000`. -/
def sC3w : State :=
  { headers := [], footers := [], freeList := [],
    startAddr := 0x1000, endAddr := 0x2000, maxAddr := 0x3000 }

/-- A minimal heap with `0x5000` bytes of current space used to exercise
the shrink branch of `heap_resize`. -/
def sC8x : State :=
  { headers := [], footers := [], freeList := [],
    startAddr := 0x400000, endAddr := 0x405000, maxAddr := 0x500000 }

/-! ### Arithmetic facts about the 32-bit model -/

theorem add32_eq {a b : Nat} (h : a + b < W) : add32 a b = a + b := by
  simp only [add32]
  exact Nat.mod_eq_of_lt h

theorem sub32_eq {a b : Nat} (hb : b ≤ a) (ha : a < W) : sub32 a b = a - b := by
  have hbW : b < W := lt_of_le_of_lt hb ha
  simp only [sub32, Nat.mod_eq_of_lt hbW, W] at *
  omega

theorem add32_lt (a b : Nat) : add32 a b < W := by
  simp only [add32, W]
  omega

theorem add32_assoc3 (a b c : Nat) : add32 (add32 a b) c = add32 a (b + c) := by
  simp only [add32, Nat.mod_add_mod]
  rw [Nat.add_assoc]

theorem add32_ne {a k : Nat} (ha : a < W) (h0 : 0 < k) (hk : k < W) : add32 a k ≠ a := by
  simp only [add32]
  intro h
  rcases Nat.lt_or_ge (a + k) W with hlt | hge
  · rw [Nat.mod_eq_of_lt hlt] at h
    omega
  · have h2 : a + k - W < W := by simp only [W] at *; omega
    rw [Nat.mod_eq_sub_mod hge, Nat.mod_eq_of_lt h2] at h
    simp only [W] at *
    omega

theorem and_fff_eq_mod (x : Nat) : x &&& 0xFFF = x % PAGE_SIZE := by
  have h : (0xFFF : Nat) = 2 ^ 12 - 1 := by norm_num
  have h2 : PAGE_SIZE = 2 ^ 12 := by norm_num [PAGE_SIZE]
  rw [h, h2, Nat.and_pow_two_sub_one_eq_mod]

theorem and_shiftLeft_mask (v m k : Nat) : v &&& (m <<< k) = ((v >>> k) &&& m) <<< k := by
  apply Nat.eq_of_testBit_eq
  intro i
  by_cases h : k ≤ i
  · have h2 : k + (i - k) = i := by omega
    simp [Nat.testBit_and, Nat.testBit_shiftLeft, Nat.testBit_shiftRight, h, h2,
      Bool.and_comm, Bool.and_assoc, Bool.and_left_comm]
  · simp [Nat.testBit_and, Nat.testBit_shiftLeft, h]

theorem alignP_eq (v : Nat) (hv : v < W) : alignP v = v / PAGE_SIZE * PAGE_SIZE := by
  have h1 : (PAGE_MASK : Nat) = 0xFFFFF <<< 12 := by decide
  have h2 : alignP v = ((v >>> 12) &&& 0xFFFFF) <<< 12 := by
    rw [alignP, h1, and_shiftLeft_mask]
  have h3 : (0xFFFFF : Nat) = 2 ^ 20 - 1 := by norm_num
  have h4 : v / 2 ^ 12 < 2 ^ 20 := by
    have : v < 2 ^ 20 * 2 ^ 12 := by
      have : (2 : Nat) ^ 20 * 2 ^ 12 = W := by norm_num [W]
      omega
    exact Nat.div_lt_of_lt_mul (by omega)
  rw [h2, h3, Nat.and_pow_two_sub_one_eq_mod, Nat.shiftRight_eq_div_pow,
      Nat.shiftLeft_eq, Nat.mod_eq_of_lt h4]
  norm_num [PAGE_SIZE]

theorem resizeRound_spec (n : Nat) (hn : n ≤ W - PAGE_SIZE) :
    resizeRound n % PAGE_SIZE = 0 ∧ n ≤ resizeRound n ∧ resizeRound n < n + PAGE_SIZE := by
  have hv : n < W := by simp only [W, PAGE_SIZE] at *; omega
  have ha := alignP_eq n hv
  simp only [resizeRound, ha, PAGE_SIZE, W] at *
  by_cases hr : n % 4096 = 0
  · have heq : n / 4096 * 4096 = n := by omega
    simp only [heq, ne_eq, not_true_eq_false, if_false]
    omega
  · have hne : ¬(n / 4096 * 4096 = n) := by omega
    simp only [ne_eq, hne, not_false_eq_true, if_true]
    have hsum : n / 4096 * 4096 + 4096 < W := by simp only [W]; omega
    rw [add32_eq hsum]
    omega

theorem resizeRound_and_one (n : Nat) (hn : n ≤ W - PAGE_SIZE) : resizeRound n &&& 1 = 0 := by
  have h := (resizeRound_spec n hn).1
  rw [Nat.and_one_is_mod]
  simp only [PAGE_SIZE] at h
  omega

theorem mask_ne_imp_ge {a : Nat} (h : a &&& 0xFFFFF000 ≠ 0) : PAGE_SIZE ≤ a := by
  by_contra hlt
  apply h
  have ha : a % PAGE_SIZE = a := Nat.mod_eq_of_lt (by omega)
  have h2 : a &&& 0xFFF = a := by rw [and_fff_eq_mod, ha]
  have h3 : (0xFFF &&& 0xFFFFF000 : Nat) = 0 := by decide
  calc a &&& 0xFFFFF000 = (a &&& 0xFFF) &&& 0xFFFFF000 := by rw [h2]
    _ = a &&& (0xFFF &&& 0xFFFFF000) := Nat.and_assoc a 0xFFF 0xFFFFF000
    _ = a &&& 0 := by rw [h3]
    _ = 0 := Nat.and_zero a

/-! ### Lookup and free-list facts -/

theorem lookupH_writeH_same (s : State) (a : Nat) (hv : HeaderV) :
    lookupH (writeH s a hv) a = some hv := by
  simp [lookupH, writeH]

theorem lookupH_writeH_ne (s : State) (a b : Nat) (hv : HeaderV) (hne : b ≠ a) :
    lookupH (writeH s a hv) b = lookupH s b := by
  have hab : ¬(a = b) := fun h => hne h.symm
  simp [lookupH, writeH, hab]

theorem lookupH_writeF (s : State) (a : Nat) (f : FooterV) (b : Nat) :
    lookupH (writeF s a f) b = lookupH s b := rfl

theorem lookupF_writeH (s : State) (a : Nat) (hv : HeaderV) (b : Nat) :
    lookupF (writeH s a hv) b = lookupF s b := rfl

theorem lookupH_saInsert (s : State) (a b : Nat) :
    lookupH (saInsert s a) b = lookupH s b := rfl

theorem readHeaderT_writeH_same (s : State) (a : Nat) (hv : HeaderV) :
    readHeaderT (writeH s a hv) a = hv := by
  simp [readHeaderT, lookupH_writeH_same]

theorem readHeaderT_writeH_ne (s : State) (a b : Nat) (hv : HeaderV) (hne : b ≠ a) :
    readHeaderT (writeH s a hv) b = readHeaderT s b := by
  simp only [readHeaderT, lookupH_writeH_ne s a b hv hne, lookupF_writeH]

theorem mem_saInsertGo (s : State) (a b : Nat) (l : List Nat) (h : b ∈ l) :
    b ∈ saInsertGo s a l := by
  induction l with
  | nil => cases h
  | cons x xs ih =>
    simp only [saInsertGo]
    split
    · exact List.mem_cons_of_mem a h
    · rcases List.mem_cons.1 h with rfl | hm
      · exact List.mem_cons_self _ _
      · exact List.mem_cons_of_mem x (ih hm)

theorem not_mem_saInsertGo (s : State) (a b : Nat) (l : List Nat)
    (hbl : b ∉ l) (hba : b ≠ a) : b ∉ saInsertGo s a l := by
  induction l with
  | nil => simpa [saInsertGo] using hba
  | cons x xs ih =>
    have hbx : b ≠ x := fun h => hbl (h ▸ List.mem_cons_self x xs)
    have hbxs : b ∉ xs := fun h => hbl (List.mem_cons_of_mem x h)
    simp only [saInsertGo]
    split
    · intro hmem
      rcases List.mem_cons.1 hmem with rfl | hm
      · exact hba rfl
      · rcases List.mem_cons.1 hm with rfl | hm2
        · exact hbx rfl
        · exact hbxs hm2
    · intro hmem
      rcases List.mem_cons.1 hmem with rfl | hm
      · exact hbx rfl
      · exact ih hbxs hm

theorem not_mem_eraseIdx_of_count_one :
    ∀ (l : List Nat) (i loc : Nat), l.get? i = some loc → l.count loc = 1 →
      loc ∉ l.eraseIdx i := by
  intro l
  induction l with
  | nil => intro i loc hg; cases hg
  | cons x xs ih =>
    intro i loc hg hc
    cases i with
    | zero =>
      have hx : x = loc := by simpa using hg
      subst hx
      have hz : xs.count x = 0 := by
        have := List.count_cons_self x xs
        omega
      simpa [List.eraseIdx] using List.count_eq_zero.1 hz
    | succ m =>
      have hgm : xs.get? m = some loc := by simpa using hg
      have hmem : loc ∈ xs := List.get?_mem hgm
      have hxne : x ≠ loc := by
        intro h
        subst h
        have h1 := List.count_cons_self x xs
        have h2 : 0 < xs.count x := List.count_pos_iff.2 hmem
        omega
      have hcx : xs.count loc = 1 := by
        rw [List.count_cons] at hc
        simpa [beq_iff_eq, hxne, Ne.symm hxne] using hc
      simp only [List.eraseIdx]
      intro hmem2
      rcases List.mem_cons.1 hmem2 with rfl | hm
      · exact hxne rfl
      · exact ih m loc hgm hcx hm

theorem add32_mod_right (a k : Nat) : add32 a k = add32 a (k % W) := by
  simp [add32, Nat.add_mod]

theorem add32_ne_mod {a k : Nat} (ha : a < W) (hk : k % W ≠ 0) : add32 a k ≠ a := by
  rw [add32_mod_right]
  exact add32_ne ha (Nat.pos_of_ne_zero hk) (Nat.mod_lt _ (by norm_num [W]))

theorem readHeaderT_of_lookupH {s : State} {a : Nat} {h : HeaderV}
    (hl : lookupH s a = some h) : readHeaderT s a = h := by
  simp [readHeaderT, hl]

theorem kallocFinish_fst (size1 newSize1 loc holeSize : Nat) (s : State) :
    (kallocFinish size1 newSize1 loc holeSize s).1 = some (add32 loc sizeofHeader) := rfl

theorem kallocFinish_lookupH (size1 newSize1 loc holeSize : Nat) (s : State)
    (hloc : loc < W) (hk : (sizeofHeader + (size1 + sizeofFooter)) % W ≠ 0) :
    lookupH (kallocFinish size1 newSize1 loc holeSize s).2 loc =
      some ⟨HEAP_MAGIC, newSize1, 1⟩ := by
  have hne : add32 (add32 (add32 loc sizeofHeader) size1) sizeofFooter ≠ loc := by
    rw [add32_assoc3, add32_assoc3]
    exact add32_ne_mod hloc hk
  simp only [kallocFinish]
  by_cases hr : sub32 holeSize newSize1 > 0
  · rw [if_pos hr]
    rw [lookupH_saInsert]
    split
    · rw [lookupH_writeF, lookupH_writeH_ne _ _ _ _ (Ne.symm hne), lookupH_writeF,
        lookupH_writeH_same]
    · rw [lookupH_writeH_ne _ _ _ _ (Ne.symm hne), lookupH_writeF, lookupH_writeH_same]
  · rw [if_neg hr]
    rw [lookupH_writeF, lookupH_writeH_same]

theorem kallocFinish_freeList_sup (size1 newSize1 loc holeSize : Nat) (s : State) (b : Nat)
    (hb : b ∈ s.freeList) : b ∈ (kallocFinish size1 newSize1 loc holeSize s).2.freeList := by
  simp only [kallocFinish, saInsert]
  by_cases hr : sub32 holeSize newSize1 > 0
  · rw [if_pos hr]
    split <;> exact mem_saInsertGo _ _ _ _ hb
  · rw [if_neg hr]
    exact hb

theorem kallocFinish_freeList_inf (size1 newSize1 loc holeSize : Nat) (s : State) (b : Nat)
    (hb : b ∉ s.freeList)
    (hne : b ≠ add32 (add32 (add32 loc sizeofHeader) size1) sizeofFooter) :
    b ∉ (kallocFinish size1 newSize1 loc holeSize s).2.freeList := by
  simp only [kallocFinish, saInsert]
  by_cases hr : sub32 holeSize newSize1 > 0
  · rw [if_pos hr]
    split <;> exact not_mem_saInsertGo _ _ _ _ hb hne
  · rw [if_neg hr]
    exact hb

theorem sub32_lt (a b : Nat) : sub32 a b < W :=
  Nat.mod_lt _ (by norm_num [W])

theorem add_sub32_cancel {c k : Nat} (h : c + k < W) : sub32 (add32 c k) k = c := by
  rw [add32_eq h, sub32_eq (Nat.le_add_left k c) h]
  omega

theorem kallocFinish_eta (a b c d : Nat) (s : State) :
    kallocFinish a b c d s = (some (add32 c sizeofHeader), (kallocFinish a b c d s).2) := rfl

theorem kallocHeap_found (fuel size : Nat) (pa : Bool) (s : State) (i : Nat)
    (h : findSmallestHole (size + sizeofHeader + sizeofFooter) pa s = some i) :
    kallocHeap (fuel + 1) size pa s = some (kallocFound size pa i s) := by
  simp only [kallocHeap, h]

/-- The scan of `find_smallest_hole` from any start index is the first-fit
search for `acceptsHole` (shared by the C2, C5 and C10 developments). -/
theorem findGo_first_fit (size : Nat) (pa : Bool) (s : State) :
    ∀ (l : List Nat) (k : Nat),
      (∀ i, findGo size pa s k l = some i → k ≤ i ∧
        ∃ a, l.get? (i - k) = some a ∧ acceptsHole size pa s a = true ∧
          ∀ j b, j < i - k → l.get? j = some b → acceptsHole size pa s b = false) ∧
      (findGo size pa s k l = none → ∀ a ∈ l, acceptsHole size pa s a = false) := by
  intro l
  induction l with
  | nil =>
    intro k
    constructor
    · intro i hi
      simp [findGo] at hi
    · intro _ a ha
      simp at ha
  | cons x xs ih =>
    intro k
    constructor
    · intro i hi
      simp only [findGo] at hi
      by_cases hx : acceptsHole size pa s x = true
      · rw [if_pos (by simpa [acceptsHole] using hx)] at hi
        cases hi
        refine ⟨Nat.le_refl _, x, ?_, hx, ?_⟩
        · simp
        · intro j b hj
          omega
      · rw [if_neg (by simpa [acceptsHole] using hx)] at hi
        obtain ⟨hki, a, hget, hacc, hmin⟩ := (ih (k + 1)).1 i hi
        refine ⟨by omega, a, ?_, hacc, ?_⟩
        · have : i - k = (i - (k + 1)) + 1 := by omega
          simpa [this] using hget
        · intro j b hj hb
          cases j with
          | zero =>
            simp at hb
            subst hb
            simpa using hx
          | succ m =>
            have hm : m < i - (k + 1) := by omega
            exact hmin m b hm (by simpa using hb)
    · intro hn a ha
      simp only [findGo] at hn
      by_cases hx : acceptsHole size pa s x = true
      · rw [if_pos (by simpa [acceptsHole] using hx)] at hn
        cases hn
      · rw [if_neg (by simpa [acceptsHole] using hx)] at hn
        rcases List.mem_cons.1 ha with rfl | hmem
        · simpa using hx
        · exact (ih (k + 1)).2 hn a hmem

theorem findSmallestHole_get (size : Nat) (pa : Bool) (s : State) (i : Nat)
    (h : findSmallestHole size pa s = some i) :
    s.freeList.get? i = some (s.freeList.getD i 0) := by
  obtain ⟨-, a, hget, -, -⟩ := (findGo_first_fit size pa s s.freeList 0).1 i h
  simp only [Nat.sub_zero] at hget
  rw [List.getD_eq_get?, hget]
  rfl

theorem size1_mod_ne (size oldHoleSize : Nat) (hs : size < 2 ^ 31) (hh : oldHoleSize < W) :
    (sizeofHeader +
      ((if sub32 oldHoleSize (size + sizeofHeader + sizeofFooter) < sizeofHeader + sizeofFooter
        then sub32 (add32 size oldHoleSize) (size + sizeofHeader + sizeofFooter)
        else size) + sizeofFooter)) % W ≠ 0 := by
  simp only [sizeofHeader, sizeofFooter, sub32, add32, W] at *
  split
  · omega
  · omega

/-! ### Claims C3, C8, C9 — `heap_resize` -/

/-- C9: for every input size and every heap state, `heap_resize` leaves
`heap->start_address` and `heap->max_address` unchanged, whether it grows,
shrinks, is a same-size no-op, or fails. -/
theorem heapResize_frame (ns : Nat) (s : State) :
    (heapResize ns s).2.startAddr = s.startAddr ∧
    (heapResize ns s).2.maxAddr = s.maxAddr := by
  simp only [heapResize]
  by_cases hc1 : resizeRound ns < sub32 s.endAddr s.startAddr
  · rw [if_pos hc1]
    exact ⟨rfl, rfl⟩
  · rw [if_neg hc1]
    by_cases hc2 : resizeRound ns > sub32 s.endAddr s.startAddr
    · rw [if_pos hc2]
      by_cases hc3 :
          add32 s.startAddr
            (if resizeRound ns &&& 1 ≠ 0 then add32 (resizeRound ns &&& 0xFFFFF000) 0x1000
             else resizeRound ns) > s.maxAddr
      · rw [if_pos hc3]
        exact ⟨rfl, rfl⟩
      · rw [if_neg hc3]
        exact ⟨rfl, rfl⟩
    · rw [if_neg hc2]
      exact ⟨rfl, rfl⟩

/-- C3: for a requested total size strictly larger than the current size,
`heap_resize` rounds the request up to the next page boundary (the rounded
value is the unique page multiple in `[ns, ns + PAGE_SIZE)`); if
`start_address` plus the rounded size exceeds `max_address` it returns `-1`
and leaves the heap completely unchanged, otherwise it returns `0` and sets
`end_address` to `start_address` plus the rounded size. -/
theorem heapResize_grow (s : State) (ns : Nat)
    (h1 : s.startAddr ≤ s.endAddr) (h2 : s.endAddr < W)
    (h3 : s.endAddr - s.startAddr < ns) (h4 : ns ≤ W - PAGE_SIZE)
    (h5 : s.startAddr + resizeRound ns < W) :
    (PAGE_SIZE ∣ resizeRound ns ∧ ns ≤ resizeRound ns ∧ resizeRound ns < ns + PAGE_SIZE) ∧
    (s.maxAddr < s.startAddr + resizeRound ns → heapResize ns s = (-1, s)) ∧
    (s.startAddr + resizeRound ns ≤ s.maxAddr →
      heapResize ns s = (0, { s with endAddr := s.startAddr + resizeRound ns })) := by
  obtain ⟨hm, hge, hlt⟩ := resizeRound_spec ns h4
  have hcur : sub32 s.endAddr s.startAddr = s.endAddr - s.startAddr := sub32_eq h1 h2
  have hone := resizeRound_and_one ns h4
  have hadd : add32 s.startAddr (resizeRound ns) = s.startAddr + resizeRound ns := add32_eq h5
  have key : heapResize ns s =
      if s.startAddr + resizeRound ns > s.maxAddr then (-1, s)
      else (0, { s with endAddr := s.startAddr + resizeRound ns }) := by
    simp only [heapResize, hcur]
    rw [if_neg (by omega), if_pos (by omega),
      if_neg (show ¬(resizeRound ns &&& 1 ≠ 0) from by simp [hone]), hadd]
  refine ⟨⟨Nat.dvd_of_mod_eq_zero hm, hge, hlt⟩, ?_, ?_⟩
  · intro hmax
    rw [key, if_pos (by omega)]
  · intro hmax
    rw [key, if_neg (by omega)]

/-- C3 witness: a concrete heap where the grow request exceeds
`max_address` and fails unchanged, and one where it succeeds. -/
theorem heapResize_grow_witness :
    heapResize 0x2800 sC3w = (-1, sC3w) ∧
    heapResize 0x1800 sC3w = (0, { sC3w with endAddr := sC3w.startAddr + resizeRound 0x1800 }) :=
  ⟨(heapResize_grow sC3w 0x2800 (by decide) (by decide) (by decide) (by decide)
      (by decide)).2.1 (by decide),
   (heapResize_grow sC3w 0x1800 (by decide) (by decide) (by decide) (by decide)
      (by decide)).2.2 (by decide)⟩

/-- C8 counterexample: with current size `0x5000`, the request `0x800`
(strictly smaller) does not round down to `0x0`; the code rounds up to
`0x1000` and then the `new_size &= 0x1000; new_size += 0x1000` mangling of
the shrink branch sets `end_address` to `start_address + 0x2000`, not to
`start_address` plus the rounded-down size. -/
theorem heapResize_shrink_claim_false :
    0x800 < sC8x.endAddr - sC8x.startAddr ∧
    (heapResize 0x800 sC8x).2.endAddr = sC8x.startAddr + 0x2000 ∧
    sC8x.startAddr + 0x2000 ≠ sC8x.startAddr + 0x800 / PAGE_SIZE * PAGE_SIZE := by
  decide

/-- C8 amended: for a request whose page-rounded-up value is strictly
smaller than the current size, `heap_resize` succeeds and sets
`end_address` to `start_address` plus that rounded size — except that when
bit 12 of the rounded size is set, the size written is exactly `0x2000`. -/
theorem heapResize_shrink (s : State) (ns : Nat)
    (h1 : s.startAddr ≤ s.endAddr) (h2 : s.endAddr < W)
    (h4 : ns ≤ W - PAGE_SIZE)
    (h3 : resizeRound ns < s.endAddr - s.startAddr)
    (h5 : s.startAddr + 0x2000 < W) (h6 : s.startAddr + resizeRound ns < W) :
    heapResize ns s =
      (0, { s with endAddr := s.startAddr +
            (if resizeRound ns &&& 0x1000 ≠ 0 then 0x2000 else resizeRound ns) }) ∧
    PAGE_SIZE ∣ resizeRound ns ∧ ns ≤ resizeRound ns ∧ resizeRound ns < ns + PAGE_SIZE := by
  obtain ⟨hm, hge, hlt⟩ := resizeRound_spec ns h4
  have hcur : sub32 s.endAddr s.startAddr = s.endAddr - s.startAddr := sub32_eq h1 h2
  refine ⟨?_, Nat.dvd_of_mod_eq_zero hm, hge, hlt⟩
  simp only [heapResize, hcur]
  rw [if_pos (by omega)]
  by_cases hbit : resizeRound ns &&& 0x1000 ≠ 0
  · have h12 : resizeRound ns &&& 0x1000 = 0x1000 := by
      have ht := Nat.and_two_pow (resizeRound ns) 12
      have he : (2 : Nat) ^ 12 = 0x1000 := by norm_num
      rw [he] at ht
      rcases hb : (resizeRound ns).testBit 12
      · rw [hb] at ht
        simp at ht
        exact absurd ht hbit
      · rw [hb] at ht
        simpa using ht
    rw [if_pos hbit, if_pos hbit, h12,
      show (0x1000 + 0x1000 : Nat) = 0x2000 from by norm_num, add32_eq h5]
  · rw [if_neg hbit, if_neg hbit, add32_eq h6]

/-- C8 amended witness: shrinking the `0x5000`-byte heap to `0x3000`
(bit 12 set) writes `end_address = start_address + 0x2000`. -/
theorem heapResize_shrink_witness :
    heapResize 0x3000 sC8x =
      (0, { sC8x with endAddr := sC8x.startAddr +
            (if resizeRound 0x3000 &&& 0x1000 ≠ 0 then 0x2000 else resizeRound 0x3000) }) :=
  (heapResize_shrink sC8x 0x3000 (by decide) (by decide) (by decide) (by decide)
    (by decide) (by decide)).1

/-! ### Claim C1 — the partition invariant -/

/-- C1: falsified on a concrete in-bounds sequence.  After
`heap_create(0x100000, 0x102000, 0x200000)`, `kalloc_heap(4076, 0)` and
`kalloc_heap(100, 0)` — the second allocation grows the region with an
empty free list, and the grow path of `kalloc_heap` opens the replacement
hole only up to `old_end + delta - sizeof(struct footer)` (kheap.c line
281) — the blocks cover `[0x101000, 0x102FF8)` while `end_address` is
`0x103000`: an 8-byte gap, so the partition invariant is violated even
though every operation succeeded and stayed within `max_address`. -/
theorem partition_invariant_violated :
    partitionOk sC1a = true ∧
    kallocHeap 2 4076 false sC1a = some (some 0x10100C, sC1b) ∧
    partitionOk sC1b = true ∧
    kallocHeap 2 100 false sC1b = some (some 0x10200C, sC1c) ∧
    sC1c.endAddr = 0x103000 ∧ sC1c.endAddr ≤ sC1c.maxAddr ∧
    lookupH sC1c 0x102FF8 = none ∧
    partitionOk sC1c = false := by
  decide

/-! ### Claim C4 — termination of the grow-and-retry path -/

/-- The highest-header scan of the grow path never terminates when the free
list is non-empty: its iterator is never incremented, so every amount of
fuel is exhausted. -/
theorem growScan_nonterm (l : List Nat) :
    ∀ fuel it v ix, it < l.length → growScan l fuel it v ix = none := by
  intro fuel
  induction fuel with
  | zero => intro it v ix h; rfl
  | succ n ih =>
    intro it v ix h
    simp only [growScan, if_pos h]
    split
    · exact ih it _ _ h
    · exact ih it _ _ h

/-- C4: falsified.  On the heap `sC4b` (one 76-byte hole),
`kalloc_heap(200, 0)` finds no hole and `heap_resize` succeeds — the
claim's premise — yet the operation never terminates: the scan loop at
kheap.c lines 267-277 never increments `iterator_result`, so no amount of
fuel makes the allocation return. -/
theorem kalloc_growth_retry_hangs :
    findSmallestHole (200 + sizeofHeader + sizeofFooter) false sC4b = none ∧
    (heapResize (add32 (sub32 sC4b.endAddr sC4b.startAddr)
      (200 + sizeofHeader + sizeofFooter)) sC4b).1 = 0 ∧
    sC4b.freeList = [0x101FB4] ∧
    ∀ fuel, kallocHeap fuel 200 false sC4b = none := by
  refine ⟨by decide, by decide, by decide, ?_⟩
  intro fuel
  cases fuel with
  | zero => rfl
  | succ n =>
    simp only [kallocHeap]
    rw [show findSmallestHole (200 + sizeofHeader + sizeofFooter) false sC4b = none from
      by decide]
    rw [if_neg (show ¬((heapResize (add32 (sub32 sC4b.endAddr sC4b.startAddr)
      (200 + sizeofHeader + sizeofFooter)) sC4b).1 = -1) from by decide)]
    rw [show (heapResize (add32 (sub32 sC4b.endAddr sC4b.startAddr)
      (200 + sizeofHeader + sizeofFooter)) sC4b).2.freeList = [0x101FB4] from by decide]
    rw [growScan_nonterm [0x101FB4] (n + 1) 0 0 none (by decide)]

/-! ### Claim C2 — `find_smallest_hole` -/

/-- C2 counterexample: on `sC2x` the claim's own first-fit search accepts
the first (and only) entry — its payload start is already page-aligned, so
the claimed padding is 0 and `5000 - 0 ≥ 2000` — and should return index 0;
the code charges a full page (`PAGE_SIZE - 0x2000 % PAGE_SIZE = 0x1000`),
computes `5000 - 4096 = 904 < 2000`, and returns `-1`. -/
theorem findSmallestHole_claim_false :
    claimedFind 2000 true sC2x 0 sC2x.freeList = some 0 ∧
    findSmallestHole 2000 true sC2x = none := by
  decide

/-- C2 amended: `find_smallest_hole` returns the first index (scanning the
free list in index order) whose entry passes the code's acceptance test —
effective size computed with the always-positive offset
`PAGE_SIZE - (loc + sizeof(header)) % PAGE_SIZE` under wrapping 32-bit
subtraction — and returns `-1` (`none`), a normal outcome and not an
error, exactly when no entry passes it. -/
theorem findSmallestHole_first_fit (size : Nat) (pa : Bool) (s : State) :
    (∀ i, findSmallestHole size pa s = some i →
      ∃ a, s.freeList.get? i = some a ∧ acceptsHole size pa s a = true ∧
        ∀ j b, j < i → s.freeList.get? j = some b → acceptsHole size pa s b = false) ∧
    (findSmallestHole size pa s = none → ∀ a ∈ s.freeList, acceptsHole size pa s a = false) := by
  have h := findGo_first_fit size pa s s.freeList 0
  constructor
  · intro i hi
    obtain ⟨-, a, hget, hacc, hmin⟩ := h.1 i hi
    refine ⟨a, by simpa using hget, hacc, ?_⟩
    intro j b hj hb
    exact hmin j b (by omega) hb
  · exact h.2

/-- C2 amended witness: on the concrete state `sC2x` the search returns
`-1` and indeed its only entry fails the code's acceptance test. -/
theorem findSmallestHole_first_fit_witness :
    acceptsHole 2000 true sC2x 0x1FF4 = false :=
  (findSmallestHole_first_fit 2000 true sC2x).2 (by decide) 0x1FF4 (by decide)

/-! ### Claim C6 — `kfree_heap` on corrupted metadata -/

/-- C6: for every non-null pointer whose derived header magic or derived
footer magic is not `HEAP_MAGIC`, `kfree_heap` returns with the state
entirely unchanged — free list, region bounds and all block metadata (the
error is "reported" by the silent-ignore policy the spec's §6 allows). -/
theorem kfree_bad_magic_no_mutation (s : State) (p : Nat) (hp : p ≠ 0)
    (hbad : (readHeaderT s (sub32 p sizeofHeader)).magic ≠ HEAP_MAGIC ∨
      (readFooterT s (sub32 (add32 (sub32 p sizeofHeader)
        (readHeaderT s (sub32 p sizeofHeader)).size) sizeofFooter)).magic ≠ HEAP_MAGIC) :
    kfreeHeap p s = s := by
  simp only [kfreeHeap, if_neg hp]
  by_cases hm : (readHeaderT s (sub32 p sizeofHeader)).magic = HEAP_MAGIC
  · rcases hbad with hb | hb
    · exact absurd hm hb
    · rw [if_neg (not_not_intro hm), if_pos hb]
  · rw [if_pos hm]

/-- C6 witness: freeing `0x10100C` over a header whose magic was smashed
to `0xDEAD` leaves the state untouched. -/
theorem kfree_bad_magic_no_mutation_witness : kfreeHeap 0x10100C sC6w = sC6w :=
  kfree_bad_magic_no_mutation sC6w 0x10100C (by decide) (Or.inl (by decide))

/-! ### Claim C7 — right coalescing in `kfree_heap` -/

/-- C7: falsified at a concrete heap.  Freeing block A (`0x101000`, size
`0x800`) with valid free right neighbour B (`0x101800`, size `0x800`) does
add B's size to A's header and does remove B's entry from the free list by
reference, but the merged block's footer at `0x101FF8` is never rewritten:
it still points to B's old header `0x101800`, not to A's header as the
claim requires, because line 416 of kheap.c assigns the (miscomputed)
footer address to `p_header` itself — and that address, `0x101FFC`, is
what gets inserted into the free list. -/
theorem kfree_right_merge_footer_stale :
    (readHeaderT sC7x 0x101800).magic = HEAP_MAGIC ∧
    (readHeaderT sC7x 0x101800).allocated = 0 ∧
    (readHeaderT (kfreeHeap 0x10100C sC7x) 0x101000).size = 0x1000 ∧
    (readHeaderT (kfreeHeap 0x10100C sC7x) 0x101000).allocated = 0 ∧
    readFooterT (kfreeHeap 0x10100C sC7x) 0x101FF8 = ⟨HEAP_MAGIC, 0x101800⟩ ∧
    (0x101800 : Nat) ≠ 0x101000 ∧
    (kfreeHeap 0x10100C sC7x).freeList = [0x101FFC] := by
  decide

/-! ### Claim C5 — page-aligned allocation -/

/-- C5: for every successful allocation — whatever the `page_align` flag —
the pointer `kalloc_heap` returns is the address immediately past the
allocated block's header: the header sitting `sizeof(struct header)` bytes
below the returned pointer carries the heap magic and is marked allocated.
When `page_align` is requested and the chosen hole's address has a bit ≥ 12
set (true of every hole a real heap ever contains, since `heap_create`
starts the data area at or above `0x1000`), the returned pointer is in
addition page-aligned. -/
theorem kalloc_returns_past_header (s : State) (size i loc fuel : Nat) (pa : Bool)
    (hfind : findSmallestHole (size + sizeofHeader + sizeofFooter) pa s = some i)
    (hloc : s.freeList.getD i 0 = loc)
    (hW : loc + PAGE_SIZE < W)
    (hsize : size < 2 ^ 31)
    (hhs : (readHeaderT s loc).size < W)
    (hmask : pa = true → loc &&& 0xFFFFF000 ≠ 0) :
    ∃ p s2, kallocHeap (fuel + 1) size pa s = some (some p, s2) ∧
      (readHeaderT s2 (sub32 p sizeofHeader)).magic = HEAP_MAGIC ∧
      (readHeaderT s2 (sub32 p sizeofHeader)).allocated = 1 ∧
      (pa = true → p % PAGE_SIZE = 0) := by
  rw [kallocHeap_found fuel size pa s i hfind]
  simp only [kallocFound, hloc]
  by_cases hcarve : pa = true ∧ loc &&& 0xFFFFF000 ≠ 0
  · have hx := and_fff_eq_mod loc
    have hge : PAGE_SIZE ≤ loc := mask_ne_imp_ge hcarve.2
    have hmlt : loc % PAGE_SIZE < PAGE_SIZE := Nat.mod_lt _ (by norm_num [PAGE_SIZE])
    have hmle : loc % PAGE_SIZE ≤ loc := Nat.mod_le loc PAGE_SIZE
    have h1 : add32 loc PAGE_SIZE = loc + PAGE_SIZE := add32_eq hW
    have h2 : sub32 (loc + PAGE_SIZE) (loc % PAGE_SIZE) =
        loc + PAGE_SIZE - loc % PAGE_SIZE := sub32_eq (by omega) hW
    have h3 : sub32 (loc + PAGE_SIZE - loc % PAGE_SIZE) sizeofHeader =
        loc + PAGE_SIZE - loc % PAGE_SIZE - sizeofHeader := by
      apply sub32_eq
      · simp only [sizeofHeader, PAGE_SIZE] at *
        omega
      · simp only [W, PAGE_SIZE] at *
        omega
    have hnl : sub32 (sub32 (add32 loc PAGE_SIZE) (loc &&& 0xFFF)) sizeofHeader =
        loc + PAGE_SIZE - loc % PAGE_SIZE - sizeofHeader := by
      rw [hx, h1, h2, h3]
    have hnlW : loc + PAGE_SIZE - loc % PAGE_SIZE - sizeofHeader + sizeofHeader < W := by
      simp only [W, PAGE_SIZE, sizeofHeader] at *
      omega
    have h4 : add32 (loc + PAGE_SIZE - loc % PAGE_SIZE - sizeofHeader) sizeofHeader =
        loc + PAGE_SIZE - loc % PAGE_SIZE := by
      rw [add32_eq hnlW]
      simp only [PAGE_SIZE, sizeofHeader] at *
      omega
    have hback : sub32 (loc + PAGE_SIZE - loc % PAGE_SIZE) sizeofHeader =
        loc + PAGE_SIZE - loc % PAGE_SIZE - sizeofHeader := by
      apply sub32_eq
      · simp only [sizeofHeader, PAGE_SIZE] at *
        omega
      · simp only [W, PAGE_SIZE] at *
        omega
    rw [if_pos hcarve, hnl]
    rw [kallocFinish_eta, h4]
    refine ⟨loc + PAGE_SIZE - loc % PAGE_SIZE, _, rfl, ?_, ?_, ?_⟩
    · rw [hback, readHeaderT_of_lookupH (kallocFinish_lookupH _ _ _ _ _
        (by simp only [W, PAGE_SIZE, sizeofHeader] at *; omega)
        (size1_mod_ne size (readHeaderT s loc).size hsize hhs))]
    · rw [hback, readHeaderT_of_lookupH (kallocFinish_lookupH _ _ _ _ _
        (by simp only [W, PAGE_SIZE, sizeofHeader] at *; omega)
        (size1_mod_ne size (readHeaderT s loc).size hsize hhs))]
    · intro _
      simp only [PAGE_SIZE] at *
      omega
  · have hlocW : loc < W := by
      simp only [W, PAGE_SIZE] at *
      omega
    have hl12 : loc + sizeofHeader < W := by
      simp only [W, PAGE_SIZE, sizeofHeader] at *
      omega
    have hback : sub32 (add32 loc sizeofHeader) sizeofHeader = loc := add_sub32_cancel hl12
    rw [if_neg hcarve, kallocFinish_eta]
    refine ⟨add32 loc sizeofHeader, _, rfl, ?_, ?_, ?_⟩
    · rw [hback, readHeaderT_of_lookupH (kallocFinish_lookupH _ _ _ _ _ hlocW
        (size1_mod_ne size (readHeaderT s loc).size hsize hhs))]
    · rw [hback, readHeaderT_of_lookupH (kallocFinish_lookupH _ _ _ _ _ hlocW
        (size1_mod_ne size (readHeaderT s loc).size hsize hhs))]
    · intro hpa
      exact absurd ⟨hpa, hmask hpa⟩ hcarve

/-- C5 witness: on `sC5w` the page-aligned allocation of 100 bytes returns
a pointer just past its allocated header on the page boundary `0x102000`,
and the unaligned allocation of 100 bytes also returns a pointer just past
its allocated header. -/
theorem kalloc_returns_past_header_witness :
    (∃ p s2, kallocHeap 1 100 true sC5w = some (some p, s2) ∧
      (readHeaderT s2 (sub32 p sizeofHeader)).magic = HEAP_MAGIC ∧
      (readHeaderT s2 (sub32 p sizeofHeader)).allocated = 1 ∧
      (true = true → p % PAGE_SIZE = 0)) ∧
    (∃ p s2, kallocHeap 1 100 false sC5w = some (some p, s2) ∧
      (readHeaderT s2 (sub32 p sizeofHeader)).magic = HEAP_MAGIC ∧
      (readHeaderT s2 (sub32 p sizeofHeader)).allocated = 1 ∧
      (false = true → p % PAGE_SIZE = 0)) :=
  ⟨kalloc_returns_past_header sC5w 100 0 0x101800 0 true (by decide) (by decide)
      (by decide) (by decide) (by decide) (by decide),
   kalloc_returns_past_header sC5w 100 0 0x101800 0 false (by decide) (by decide)
      (by decide) (by decide) (by decide) (by decide)⟩

/-! ### Claim C10 — free-list entry removal versus the carve path -/

/-- C10: when `kalloc_heap` finds a hole, the hole's free-list entry is
removed (via `sorted_array_remove` at the found index) exactly when the
allocation does not take the page-alignment carve path: if `page_align`
holds and the hole's address has a bit ≥ 12 set, the chosen entry is still
in the free list when the allocation returns; in every other case it is
gone. -/
theorem kalloc_carve_keeps_entry (s : State) (size i loc : Nat) (pa : Bool)
    (hfind : findSmallestHole (size + sizeofHeader + sizeofFooter) pa s = some i)
    (hloc : s.freeList.getD i 0 = loc)
    (hcount : s.freeList.count loc = 1)
    (hlocW : loc < W) (hsize : size < 2 ^ 31)
    (hhs : (readHeaderT s loc).size < W) :
    ∃ p s2, kallocHeap 1 size pa s = some (some p, s2) ∧
      ((pa = true ∧ loc &&& 0xFFFFF000 ≠ 0) → loc ∈ s2.freeList) ∧
      (¬(pa = true ∧ loc &&& 0xFFFFF000 ≠ 0) → loc ∉ s2.freeList) := by
  have hget := findSmallestHole_get _ _ _ _ hfind
  rw [hloc] at hget
  rw [kallocHeap_found 0 size pa s i hfind]
  simp only [kallocFound, hloc]
  by_cases hcarve : pa = true ∧ loc &&& 0xFFFFF000 ≠ 0
  · rw [if_pos hcarve]
    refine ⟨_, _, rfl, fun _ => ?_, fun hn => absurd hcarve hn⟩
    exact kallocFinish_freeList_sup _ _ _ _ _ _ (List.get?_mem hget)
  · rw [if_neg hcarve]
    refine ⟨_, _, rfl, fun hy => absurd hy hcarve, fun _ => ?_⟩
    apply kallocFinish_freeList_inf
    · exact not_mem_eraseIdx_of_count_one s.freeList i loc hget hcount
    · intro hEq
      have hne := add32_ne_mod hlocW (size1_mod_ne size (readHeaderT s loc).size hsize hhs)
      rw [add32_assoc3, add32_assoc3] at hEq
      exact hne hEq.symm

/-- C10 witness: the carve-path case on `sC10w` — after a successful
page-aligned allocation the hole's entry `0x101800` is still in the free
list. -/
theorem kalloc_carve_keeps_entry_witness :
    ∃ p s2, kallocHeap 1 100 true sC10w = some (some p, s2) ∧
      ((true = true ∧ (0x101800 : Nat) &&& 0xFFFFF000 ≠ 0) → (0x101800 : Nat) ∈ s2.freeList) ∧
      (¬(true = true ∧ (0x101800 : Nat) &&& 0xFFFFF000 ≠ 0) → (0x101800 : Nat) ∉ s2.freeList) :=
  kalloc_carve_keeps_entry sC10w 100 0 0x101800 true (by decide) (by decide) (by decide)
    (by decide) (by decide) (by decide)

end KHeap
